import Mathlib

/-!
# System scheduler: type-erased scheduler, sender and operation state

A shallow embedding of `include/exec/system_scheduler.hpp`.

* Objects created with `new` live in a heap (`State.heap`); a pointer is the
  address of a heap cell, `0` is `nullptr`.  The source never calls `delete`,
  so the heap only grows.
* Virtual calls dispatch on the dynamic type stored in the heap cell.
* Calls made through the function pointers of a receiver bridge are recorded
  in `State.log`, in program order.
* The thread pool (`exec/static_thread_pool.hpp`) is an external collaborator;
  it is represented by the queue of started pool operations, and its
  completion of a queued operation is an environment step.
-/

namespace SystemScheduler

/-! ## Data model -/

/-- Raw object pointer: the address of a heap cell, `0` is `nullptr`. -/
abbrev Ptr := Nat

/-- Modelled from the spec: the enumeration `stdexec::forward_progress_guarantee`
of `stdexec/execution.hpp`, which is not part of the sources at hand. -/
inductive forward_progress_guarantee
  | concurrent
  | parallel
  | weakly_parallel
  deriving DecidableEq, Repr

/-- Values of type `void*` that occur in the program. -/
inductive VoidPtr
  /-- The null pointer `nullptr` -/
  | null
  /-- The address `&op.recv_`: the concrete receiver stored in the `__op` placed at `op` -/
  | recv_of_op (op : Nat)
  /-- The address `&os->recv_.cpp_recv_`: the member `cpp_recv_` inside the bridge stored
  in the operation state at `os` -/
  | cpp_recv_of_os (os : Ptr)
  /-- any other address handed in by a caller of the low-level interface -/
  | other (a : Nat)
  deriving DecidableEq, Repr

/-- Values of type `void (*)(void*)` that occur in the program. -/
inductive FnPtr
  /-- The lambda `[](void* cpp_recv){ stdexec::set_value(std::move(*static_cast<R*>(cpp_recv))); }` -/
  | set_value_trampoline
  /-- The lambda `[](void* cpp_recv){ stdexec::set_stopped(std::move(*static_cast<R*>(cpp_recv))); }` -/
  | set_stopped_trampoline
  /-- any other function handed in by a caller of the low-level interface -/
  | other (id : Nat)
  deriving DecidableEq, Repr

/-- The alias `using __exec_system_bulk_shape = long;` -/
abbrev __exec_system_bulk_shape := Int

/-- The type `__exec_system_bulk_function*`: a pointer to a `void(long)` function. -/
abbrev __exec_system_bulk_function := Nat

/-- The class `struct __exec_system_receiver`: the receiver bridge. -/
structure __exec_system_receiver where
  cpp_recv_ : VoidPtr
  set_value : FnPtr
  set_stopped : FnPtr
  deriving DecidableEq, Repr

/-- The two function-pointer members of `__exec_system_receiver`. -/
inductive BridgeMember
  | set_value
  | set_stopped
  deriving DecidableEq, Repr

/-- Calls of user-supplied code, as they are recorded in the log. -/
inductive Event
  /-- the call `recv_.member(arg)` made on the bridge of the operation state
  at `os`; `fn` is the function pointer found in that member -/
  | bridge_call (os : Ptr) (member : BridgeMember) (fn : FnPtr) (arg : VoidPtr)
  /-- a call `fn(index)` of a bulk index function on behalf of the operation
  state at `os`.  No function of the source contains such a call, so none of
  the operations below records this event. -/
  | bulk_call (os : Ptr) (index : Int)
  deriving DecidableEq, Repr

/-- The class `struct __exec_system_pool_receiver { ...; __exec_system_operation_state_impl* os_; }` -/
structure __exec_system_pool_receiver where
  os_ : Ptr
  deriving DecidableEq, Repr

/-- The class `struct __exec_system_bulk_pool_receiver { ...; __exec_system_bulk_operation_state_impl* os_; }` -/
structure __exec_system_bulk_pool_receiver where
  os_ : Ptr
  deriving DecidableEq, Repr

/-- Modelled from the spec: the scheduler of `exec::static_thread_pool`
(`decltype(ctx->pool_.get_scheduler())`), whose header is not part of the
sources at hand.  It refers to its pool, named by the address of the context
that owns the pool. -/
structure PoolScheduler where
  pool : Ptr
  deriving DecidableEq, Repr

/-- Modelled from the spec: `__exec_pool_sender_t`, the sender that
`stdexec::schedule` returns for a pool scheduler. -/
structure PoolSender where
  pool : Ptr
  deriving DecidableEq, Repr

/-- Modelled from the spec: the operation state that `stdexec::connect` returns
for a pool sender and a receiver of type `R`; it stores the receiver. -/
structure PoolOperationState (R : Type) where
  pool : Ptr
  receiver : R
  deriving DecidableEq, Repr

/-- Modelled from the spec: a started pool operation waiting in the pool, with
the receiver it will complete. -/
inductive PoolTask
  | single (r : __exec_system_pool_receiver)
  | bulk (r : __exec_system_bulk_pool_receiver)
  deriving DecidableEq, Repr

/-- Modelled from the spec: the completion signals of the sender/receiver
protocol that a pool sender may send to its receiver. -/
inductive Completion
  | set_value
  | set_stopped
  | set_error
  deriving DecidableEq, Repr

/-- Heap cells: the classes of the low-level interface, tagged with their
dynamic type. -/
inductive Obj
  /-- The class `struct __exec_system_context_impl`; its member `pool_` is named by the
  address of the cell -/
  | context_impl
  /-- The class `struct __exec_system_scheduler_impl` -/
  | scheduler_impl (ctx_ : Ptr) (pool_scheduler_ : PoolScheduler)
  /-- The class `struct __exec_system_sender_impl` -/
  | sender_impl (scheduler_ : Ptr) (pool_sender_ : PoolSender)
  /-- The class `struct __exec_system_bulk_sender_impl` -/
  | bulk_sender_impl (scheduler_ : Ptr) (pool_sender_ : PoolSender)
  /-- The class `struct __exec_system_operation_state_impl` -/
  | operation_state_impl (recv_ : __exec_system_receiver)
      (pool_operation_state_ : PoolOperationState __exec_system_pool_receiver)
  /-- The class `struct __exec_system_bulk_operation_state_impl`; the constructor leaves
  `bulk_function_` without a value -/
  | bulk_operation_state_impl (recv_ : __exec_system_receiver)
      (bulk_function_ : Option __exec_system_bulk_function)
      (pool_operation_state_ : PoolOperationState __exec_system_bulk_pool_receiver)
  deriving DecidableEq, Repr

/-- Program state: the heap, the started pool operations that have not
completed yet, and the log of calls of user-supplied code. -/
structure State where
  heap : List Obj
  queue : List PoolTask
  log : List Event
  deriving DecidableEq, Repr

/-! ## Heap primitives -/

/-- Read the cell a pointer refers to; `nullptr` and addresses beyond the heap
have no cell. -/
def deref (h : List Obj) (p : Ptr) : Option Obj :=
  if p = 0 then none else h.get? (p - 1)

/-- The operator `new`: the object is constructed at the next free address,
which its constructor sees as `this`. -/
def alloc (st : State) (ctor : Ptr → Obj) : Ptr × State :=
  (st.heap.length + 1,
   { st with heap := st.heap ++ [ctor (st.heap.length + 1)] })

/-! ## The thread pool (external collaborator) -/

/-- Modelled from the spec: `pool_.get_scheduler()` of `exec::static_thread_pool`. -/
def pool_get_scheduler (pool : Ptr) : PoolScheduler :=
  ⟨pool⟩

/-- Modelled from the spec: `stdexec::schedule(pool_scheduler)`. -/
def pool_schedule (s : PoolScheduler) : PoolSender :=
  ⟨s.pool⟩

/-- Modelled from the spec: `stdexec::connect(pool_sender, receiver)` stores
the receiver and does nothing else. -/
def pool_connect {R : Type} (s : PoolSender) (r : R) : PoolOperationState R :=
  ⟨s.pool, r⟩

/-- Modelled from the spec: `stdexec::start(pool_operation_state)` hands the
operation to the pool, which completes it later from a worker thread. -/
def pool_start (st : State) (t : PoolTask) : State :=
  { st with queue := st.queue ++ [t] }

/-! ## Low-level interface -/

/-- The member function `__exec_system_context_impl::get_scheduler()`:
`return new __exec_system_scheduler_impl(this, pool_.get_scheduler());` -/
def __exec_system_context_impl.get_scheduler (this : Ptr) (st : State) :
    Option (Ptr × State) :=
  match deref st.heap this with
  | some Obj.context_impl =>
      some (alloc st (fun _ => Obj.scheduler_impl this (pool_get_scheduler this)))
  | _ => none

/-- The member function `__exec_system_scheduler_impl::schedule()`:
`return new __exec_system_sender_impl(this, stdexec::schedule(pool_scheduler_));` -/
def __exec_system_scheduler_impl.schedule (this : Ptr) (st : State) :
    Option (Ptr × State) :=
  match deref st.heap this with
  | some (Obj.scheduler_impl _ pool_scheduler_) =>
      some (alloc st (fun _ => Obj.sender_impl this (pool_schedule pool_scheduler_)))
  | _ => none

/-- The member function `__exec_system_scheduler_impl::bulk(shp, fn)`:
`return new __exec_system_sender_impl(this, stdexec::schedule(pool_scheduler_));`
(neither `shp` nor `fn` is used). -/
def __exec_system_scheduler_impl.bulk (this : Ptr) (_shp : __exec_system_bulk_shape)
    (_fn : __exec_system_bulk_function) (st : State) : Option (Ptr × State) :=
  match deref st.heap this with
  | some (Obj.scheduler_impl _ pool_scheduler_) =>
      some (alloc st (fun _ => Obj.sender_impl this (pool_schedule pool_scheduler_)))
  | _ => none

/-- The member function `__exec_system_scheduler_impl::get_forward_progress_guarantee()`. -/
def __exec_system_scheduler_impl.get_forward_progress_guarantee (this : Ptr) (st : State) :
    Option forward_progress_guarantee :=
  match deref st.heap this with
  | some (Obj.scheduler_impl _ _) => some forward_progress_guarantee.parallel
  | _ => none

/-- The cast `dynamic_cast<const __exec_system_scheduler_impl*>(rhs)`: `rhs` itself when
it points to an object of that class, `nullptr` otherwise. -/
def dynamic_cast_scheduler_impl (h : List Obj) (rhs : Ptr) : Ptr :=
  match deref h rhs with
  | some (Obj.scheduler_impl _ _) => rhs
  | _ => 0

/-- The member function `__exec_system_scheduler_impl::equals(rhs)`:
`return dynamic_cast<const __exec_system_scheduler_impl*>(rhs) == this;` -/
def __exec_system_scheduler_impl.equals (st : State) (this rhs : Ptr) : Option Bool :=
  match deref st.heap this with
  | some (Obj.scheduler_impl _ _) =>
      some (decide (dynamic_cast_scheduler_impl st.heap rhs = this))
  | _ => none

/-- The member function `__exec_system_sender_impl::connect(recv)`:
`return new __exec_system_operation_state_impl(std::move(pool_sender_), std::move(recv));`
where the constructor connects the pool sender to `__exec_system_pool_receiver{this}`. -/
def __exec_system_sender_impl.connect (pool_sender_ : PoolSender)
    (recv : __exec_system_receiver) (st : State) : Ptr × State :=
  alloc st (fun this =>
    Obj.operation_state_impl recv (pool_connect pool_sender_ ⟨this⟩))

/-- The member function `__exec_system_bulk_sender_impl::connect(recv)`:
`return new __exec_system_bulk_operation_state_impl(std::move(pool_sender_), std::move(recv));`
where the constructor connects the pool sender to
`__exec_system_bulk_pool_receiver{this}`. -/
def __exec_system_bulk_sender_impl.connect (pool_sender_ : PoolSender)
    (recv : __exec_system_receiver) (st : State) : Ptr × State :=
  alloc st (fun this =>
    Obj.bulk_operation_state_impl recv none (pool_connect pool_sender_ ⟨this⟩))

/-- The virtual call `snd->connect(recv)` on a `__exec_system_sender_interface*`. -/
def __exec_system_sender_interface.connect (snd : Ptr) (recv : __exec_system_receiver)
    (st : State) : Option (Ptr × State) :=
  match deref st.heap snd with
  | some (Obj.sender_impl _ pool_sender_) =>
      some (__exec_system_sender_impl.connect pool_sender_ recv st)
  | some (Obj.bulk_sender_impl _ pool_sender_) =>
      some (__exec_system_bulk_sender_impl.connect pool_sender_ recv st)
  | _ => none

/-- The virtual call `snd->get_completion_scheduler()`; both implementations
are `return scheduler_;`. -/
def __exec_system_sender_interface.get_completion_scheduler (snd : Ptr) (st : State) :
    Option Ptr :=
  match deref st.heap snd with
  | some (Obj.sender_impl scheduler_ _) => some scheduler_
  | some (Obj.bulk_sender_impl scheduler_ _) => some scheduler_
  | _ => none

/-- The virtual call `os->start()`; both implementations are
`stdexec::start(pool_operation_state_);`. -/
def __exec_system_operation_state_interface.start (os : Ptr) (st : State) : Option State :=
  match deref st.heap os with
  | some (Obj.operation_state_impl _ pool_operation_state_) =>
      some (pool_start st (PoolTask.single pool_operation_state_.receiver))
  | some (Obj.bulk_operation_state_impl _ _ pool_operation_state_) =>
      some (pool_start st (PoolTask.bulk pool_operation_state_.receiver))
  | _ => none

/-- Record one call through a member of a bridge. -/
def invoke (st : State) (os : Ptr) (member : BridgeMember) (fn : FnPtr) (arg : VoidPtr) :
    State :=
  { st with log := st.log ++ [Event.bridge_call os member fn arg] }

/-- The function `tag_invoke(stdexec::set_value_t, __exec_system_pool_receiver&& recv)`:
`system_recv.set_value((system_recv.cpp_recv_));` with
`system_recv = recv.os_->recv_`. -/
def __exec_system_pool_receiver.set_value (recv : __exec_system_pool_receiver) (st : State) :
    Option State :=
  match deref st.heap recv.os_ with
  | some (Obj.operation_state_impl system_recv _) =>
      some (invoke st recv.os_ BridgeMember.set_value system_recv.set_value
        system_recv.cpp_recv_)
  | _ => none

/-- The function `tag_invoke(stdexec::set_stopped_t, __exec_system_pool_receiver&& recv)`:
`recv.os_->recv_.set_stopped(&(system_recv.cpp_recv_));` -/
def __exec_system_pool_receiver.set_stopped (recv : __exec_system_pool_receiver) (st : State) :
    Option State :=
  match deref st.heap recv.os_ with
  | some (Obj.operation_state_impl system_recv _) =>
      some (invoke st recv.os_ BridgeMember.set_stopped system_recv.set_stopped
        (VoidPtr.cpp_recv_of_os recv.os_))
  | _ => none

/-- The function `tag_invoke(stdexec::set_error_t, __exec_system_pool_receiver&&, std::exception_ptr)`:
the body is empty. -/
def __exec_system_pool_receiver.set_error (_recv : __exec_system_pool_receiver) (st : State) :
    Option State :=
  some st

/-- The function `tag_invoke(stdexec::set_value_t, __exec_system_bulk_pool_receiver&& recv)`:
`system_recv.set_value((system_recv.cpp_recv_));` -/
def __exec_system_bulk_pool_receiver.set_value (recv : __exec_system_bulk_pool_receiver)
    (st : State) : Option State :=
  match deref st.heap recv.os_ with
  | some (Obj.bulk_operation_state_impl system_recv _ _) =>
      some (invoke st recv.os_ BridgeMember.set_value system_recv.set_value
        system_recv.cpp_recv_)
  | _ => none

/-- The function `tag_invoke(stdexec::set_stopped_t, __exec_system_bulk_pool_receiver&& recv)`:
`recv.os_->recv_.set_stopped(&(system_recv.cpp_recv_));` -/
def __exec_system_bulk_pool_receiver.set_stopped (recv : __exec_system_bulk_pool_receiver)
    (st : State) : Option State :=
  match deref st.heap recv.os_ with
  | some (Obj.bulk_operation_state_impl system_recv _ _) =>
      some (invoke st recv.os_ BridgeMember.set_stopped system_recv.set_stopped
        (VoidPtr.cpp_recv_of_os recv.os_))
  | _ => none

/-- The function `tag_invoke(stdexec::set_error_t, __exec_system_bulk_pool_receiver&&, std::exception_ptr)`:
the body is empty. -/
def __exec_system_bulk_pool_receiver.set_error (_recv : __exec_system_bulk_pool_receiver)
    (st : State) : Option State :=
  some st

/-- Modelled from the spec: the pool completes a started operation by sending
one completion signal to the receiver stored in it. -/
def pool_deliver (c : Completion) (t : PoolTask) (st : State) : Option State :=
  match t, c with
  | PoolTask.single r, Completion.set_value => r.set_value st
  | PoolTask.single r, Completion.set_stopped => r.set_stopped st
  | PoolTask.single r, Completion.set_error => r.set_error st
  | PoolTask.bulk r, Completion.set_value => r.set_value st
  | PoolTask.bulk r, Completion.set_stopped => r.set_stopped st
  | PoolTask.bulk r, Completion.set_error => r.set_error st

/-- Modelled from the spec: a worker thread takes the started operation at
position `i` out of the pool and completes it with signal `c`. -/
def pool_complete (i : Nat) (c : Completion) (st : State) : Option State :=
  match st.queue.get? i with
  | some t => pool_deliver c t { st with queue := st.queue.eraseIdx i }
  | none => none

/-- The pool operation that `os->start()` hands to the pool: the one stored in
the member `pool_operation_state_` of the operation state at `os`. -/
def pool_task_of (h : List Obj) (os : Ptr) : Option PoolTask :=
  match deref h os with
  | some (Obj.operation_state_impl _ pool_operation_state_) =>
      some (PoolTask.single pool_operation_state_.receiver)
  | some (Obj.bulk_operation_state_impl _ _ pool_operation_state_) =>
      some (PoolTask.bulk pool_operation_state_.receiver)
  | _ => none

/-! ## Public interface (`namespace exec`) -/

/-- The function `__get_exec_system_context_impl()`: the address of its static
local `impl_`, which is the first object of the program. -/
def __get_exec_system_context_impl : Ptr := 1

/-- The state in which only the static context implementation exists. -/
def State.init : State :=
  ⟨[Obj.context_impl], [], []⟩

/-- The class `exec::system_context`. -/
structure system_context where
  impl_ : Ptr
  deriving DecidableEq, Repr

/-- The class `exec::system_scheduler`. -/
structure system_scheduler where
  scheduler_interface_ : Ptr
  deriving DecidableEq, Repr

/-- The class `exec::system_sender`. -/
structure system_sender where
  sender_impl_ : Ptr
  deriving DecidableEq, Repr

/-- The class template `exec::system_bulk_sender<Pred, Shape, Fn>`. -/
structure system_bulk_sender (Pred Fn : Type) where
  scheduler_impl_ : Ptr
  pred_ : Pred
  shape_ : Int
  fun_ : Fn
  deriving DecidableEq, Repr

/-- The nested `struct __env` of both sender classes. -/
structure __env where
  scheduler_impl_ : Ptr
  deriving DecidableEq, Repr

/-- The nested `struct __op<S, R_>` of both sender classes. -/
structure __op (S R : Type) where
  snd_ : S
  recv_ : R
  os_ : Ptr
  deriving DecidableEq, Repr

/-- The constructor `system_context()`: `impl_ = __get_exec_system_context_impl();` -/
def system_context.new : system_context :=
  ⟨__get_exec_system_context_impl⟩

/-- The member `system_context::get_scheduler()`:
`return system_scheduler{impl_->get_scheduler()};` -/
def system_context.get_scheduler (self : system_context) (st : State) :
    Option (system_scheduler × State) :=
  match __exec_system_context_impl.get_scheduler self.impl_ st with
  | some (p, st1) => some (⟨p⟩, st1)
  | none => none

/-- The member `system_scheduler::operator==(rhs)`:
`return scheduler_interface_->equals(rhs.scheduler_interface_);` -/
def system_scheduler.operator_eq (st : State) (self rhs : system_scheduler) : Option Bool :=
  __exec_system_scheduler_impl.equals st self.scheduler_interface_ rhs.scheduler_interface_

/-- The function `tag_invoke(stdexec::schedule_t, const system_scheduler& sched)`:
`return system_sender(sched.scheduler_interface_->schedule());` -/
def tag_invoke_schedule (sched : system_scheduler) (st : State) :
    Option (system_sender × State) :=
  match __exec_system_scheduler_impl.schedule sched.scheduler_interface_ st with
  | some (p, st1) => some (⟨p⟩, st1)
  | none => none

/-- The function
`tag_invoke(stdexec::get_forward_progress_guarantee_t, const system_scheduler& sched)`:
`return sched.scheduler_interface_->get_forward_progress_guarantee();` -/
def tag_invoke_get_forward_progress_guarantee (sched : system_scheduler) (st : State) :
    Option forward_progress_guarantee :=
  __exec_system_scheduler_impl.get_forward_progress_guarantee sched.scheduler_interface_ st

/-- The function `tag_invoke(stdexec::bulk_t, sch, pred, shape, fun)`:
`return system_bulk_sender<S, Shape, Fn>{sch.scheduler_interface_, pred, shape, fun};` -/
def tag_invoke_bulk {Pred Fn : Type} (sch : system_scheduler) (pred : Pred) (shape : Int)
    (fun_ : Fn) : system_bulk_sender Pred Fn :=
  ⟨sch.scheduler_interface_, pred, shape, fun_⟩

/-- The bridge built by the lambda of both `connect` customisations:
`__exec_system_receiver receiver_impl{&op.recv_, <set_value lambda>, <set_stopped lambda>};` -/
def receiver_impl (op : Nat) : __exec_system_receiver :=
  ⟨VoidPtr.recv_of_op op, FnPtr.set_value_trampoline, FnPtr.set_stopped_trampoline⟩

/-- The function `tag_invoke(stdexec::connect_t, system_sender&& snd, R&& rec)`; `op` is
the place where the returned `__op` is constructed.  Its member `os_` is
`op.snd_.sender_impl_->connect(std::move(receiver_impl))`. -/
def system_sender.tag_invoke_connect {R : Type} (snd : system_sender) (rec : R) (op : Nat)
    (st : State) : Option (__op system_sender R × State) :=
  match __exec_system_sender_interface.connect snd.sender_impl_ (receiver_impl op) st with
  | some (os, st1) => some (⟨snd, rec, os⟩, st1)
  | none => none

/-- The function `tag_invoke(stdexec::connect_t, system_bulk_sender&& snd, R&& rec)`; `op`
is the place where the returned `__op` is constructed.  Its member `os_` is
`op.snd_.scheduler_impl_->schedule()->connect(std::move(receiver_impl))`. -/
def system_bulk_sender.tag_invoke_connect {Pred Fn R : Type}
    (snd : system_bulk_sender Pred Fn) (rec : R) (op : Nat) (st : State) :
    Option (__op (system_bulk_sender Pred Fn) R × State) :=
  match __exec_system_scheduler_impl.schedule snd.scheduler_impl_ st with
  | some (s, st1) =>
      match __exec_system_sender_interface.connect s (receiver_impl op) st1 with
      | some (os, st2) => some (⟨snd, rec, os⟩, st2)
      | none => none
  | none => none

/-- The function `tag_invoke(stdexec::start_t, __op& op)`:
`if(auto os = op.os_) { os->start(); }` -/
def __op.tag_invoke_start {S R : Type} (op : __op S R) (st : State) : Option State :=
  if op.os_ = 0 then some st
  else __exec_system_operation_state_interface.start op.os_ st

/-- The function `tag_invoke(stdexec::get_env_t, const system_sender& snd)`:
`return {snd.sender_impl_->get_completion_scheduler()};` -/
def system_sender.tag_invoke_get_env (snd : system_sender) (st : State) : Option __env :=
  match __exec_system_sender_interface.get_completion_scheduler snd.sender_impl_ st with
  | some p => some ⟨p⟩
  | none => none

/-- The function `tag_invoke(stdexec::get_env_t, const system_bulk_sender& snd)`:
`return {snd.scheduler_impl_};` -/
def system_bulk_sender.tag_invoke_get_env {Pred Fn : Type} (snd : system_bulk_sender Pred Fn) :
    __env :=
  ⟨snd.scheduler_impl_⟩

/-- The function
`tag_invoke(stdexec::get_completion_scheduler_t<stdexec::set_value_t>, const __env& self)`:
`return {self.scheduler_impl_};` -/
def __env.get_completion_scheduler_set_value (self : __env) : system_scheduler :=
  ⟨self.scheduler_impl_⟩

/-- The function
`tag_invoke(stdexec::get_completion_scheduler_t<stdexec::set_stopped_t>, const __env& self)`:
`return {self.scheduler_impl_};` -/
def __env.get_completion_scheduler_set_stopped (self : __env) : system_scheduler :=
  ⟨self.scheduler_impl_⟩

/-! ## Runs of the low-level interface -/

/-- One step of a client of the low-level interface, or of the pool. -/
inductive Action
  /-- the call `ctx->get_scheduler()` -/
  | get_scheduler (ctx : Ptr)
  /-- the call `sched->schedule()` -/
  | schedule (sched : Ptr)
  /-- the call `sched->bulk(shp, fn)` -/
  | bulk (sched : Ptr) (shp : __exec_system_bulk_shape) (fn : __exec_system_bulk_function)
  /-- the call `snd->connect(recv)` -/
  | connect (snd : Ptr) (recv : __exec_system_receiver)
  /-- the call `os->start()` -/
  | start (os : Ptr)
  /-- the client drops its pointer to an object: no class of the source
  declares a destructor and the source never calls `delete`, so no code runs -/
  | discard (p : Ptr)
  /-- the pool completes the started operation at position `i` with signal `c` -/
  | pool_complete (i : Nat) (c : Completion)
  deriving DecidableEq, Repr

/-- The state after one action; `none` when the action dereferences a pointer
that does not point to an object of the required class. -/
def step (st : State) : Action → Option State
  | Action.get_scheduler ctx =>
      (__exec_system_context_impl.get_scheduler ctx st).map Prod.snd
  | Action.schedule sched =>
      (__exec_system_scheduler_impl.schedule sched st).map Prod.snd
  | Action.bulk sched shp fn =>
      (__exec_system_scheduler_impl.bulk sched shp fn st).map Prod.snd
  | Action.connect snd recv =>
      (__exec_system_sender_interface.connect snd recv st).map Prod.snd
  | Action.start os => __exec_system_operation_state_interface.start os st
  | Action.discard _ => some st
  | Action.pool_complete i c => pool_complete i c st

/-- The state after a sequence of actions. -/
def run (st : State) : List Action → Option State
  | [] => some st
  | a :: rest =>
      match step st a with
      | some st1 => run st1 rest
      | none => none

/-- The operation state an event belongs to. -/
def Event.os : Event → Ptr
  | Event.bridge_call os _ _ _ => os
  | Event.bulk_call os _ => os

/-- The operation state a pool operation will complete. -/
def PoolTask.os_ : PoolTask → Ptr
  | PoolTask.single r => r.os_
  | PoolTask.bulk r => r.os_

/-- Whether a pointer refers to an object of class `__exec_system_scheduler_impl`. -/
def is_scheduler_impl (h : List Obj) (p : Ptr) : Bool :=
  match deref h p with
  | some (Obj.scheduler_impl _ _) => true
  | _ => false

/-- Whether a pointer refers to an object of one of the two sender classes. -/
def is_sender_impl (h : List Obj) (p : Ptr) : Bool :=
  match deref h p with
  | some (Obj.sender_impl _ _) => true
  | some (Obj.bulk_sender_impl _ _) => true
  | _ => false

/-- The pool receiver stored in an operation state refers back to that
operation state. -/
def Obj.back_pointer_ok (a : Ptr) : Obj → Bool
  | Obj.operation_state_impl _ pool_operation_state_ =>
      decide (pool_operation_state_.receiver.os_ = a)
  | Obj.bulk_operation_state_impl _ _ pool_operation_state_ =>
      decide (pool_operation_state_.receiver.os_ = a)
  | _ => true

/-- Consistency of a state: every operation state is the target of its own
pool receiver (as its constructor arranges), and the pool and the log mention
only existing objects. -/
def State.wf (st : State) : Prop :=
  (∀ (a : Nat) (o : Obj), deref st.heap a = some o → o.back_pointer_ok a = true) ∧
  (∀ t ∈ st.queue, t.os_ ≤ st.heap.length) ∧
  (∀ e ∈ st.log, e.os ≤ st.heap.length)

/-! ## Scenarios -/

/-- A predecessor sender for `bulk`, named by the signal with which it
completes once it is connected and started (`stdexec::just()` or
`stdexec::just_stopped()`). -/
inductive PredSender
  | just
  | just_stopped
  deriving DecidableEq, Repr

/-- The indices with which a bulk index function was called, in order. -/
def bulk_calls : List Event → List Int
  | [] => []
  | Event.bulk_call _ index :: rest => index :: bulk_calls rest
  | Event.bridge_call _ _ _ _ :: rest => bulk_calls rest

/-- The program `system_context ctx; auto sched = ctx.get_scheduler();
auto op = connect(schedule(sched), rec); start(op);` with `op` placed at
address `op`, followed by the pool completing the started operation with
signal `c`. -/
def schedule_scenario {R : Type} (rec : R) (op : Nat) (c : Completion) : Option State :=
  match system_context.new.get_scheduler State.init with
  | some (sched, st1) =>
      match tag_invoke_schedule sched st1 with
      | some (snd, st2) =>
          match snd.tag_invoke_connect rec op st2 with
          | some (o, st3) =>
              match o.tag_invoke_start st3 with
              | some st4 => pool_complete 0 c st4
              | none => none
          | none => none
      | none => none
  | none => none

/-- The program `system_context ctx; auto sched = ctx.get_scheduler();
auto op = connect(bulk(sched, pred, shape, fun), rec); start(op);` with `op`
placed at address `op`, followed by the pool completing the started operation
with signal `c`. -/
def bulk_scenario {Pred Fn R : Type} (pred : Pred) (shape : Int) (fun_ : Fn) (rec : R)
    (op : Nat) (c : Completion) : Option State :=
  match system_context.new.get_scheduler State.init with
  | some (sched, st1) =>
      match (tag_invoke_bulk sched pred shape fun_).tag_invoke_connect rec op st1 with
      | some (o, st2) =>
          match o.tag_invoke_start st2 with
          | some st3 => pool_complete 0 c st3
          | none => none
      | none => none
  | none => none

/-- The same through the low-level interface:
`auto os = ctx->get_scheduler()->bulk(shp, fn)->connect(recv); os->start();`
followed by the pool completing the started operation with signal `c`. -/
def low_level_bulk_scenario (shp : __exec_system_bulk_shape)
    (fn : __exec_system_bulk_function) (recv : __exec_system_receiver) (c : Completion) :
    Option State :=
  match __exec_system_context_impl.get_scheduler __get_exec_system_context_impl State.init with
  | some (sched, st1) =>
      match __exec_system_scheduler_impl.bulk sched shp fn st1 with
      | some (snd, st2) =>
          match __exec_system_sender_interface.connect snd recv st2 with
          | some (os, st3) =>
              match __exec_system_operation_state_interface.start os st3 with
              | some st4 => pool_complete 0 c st4
              | none => none
          | none => none
      | none => none
  | none => none

/-! ## Heap lemmas -/

theorem deref_eq_some {heap : List Obj} {p : Nat} {o : Obj} :
    deref heap p = some o ↔ ∃ i : Nat, p = i + 1 ∧ heap.get? i = some o := by
  unfold deref
  constructor
  · intro hd
    cases p with
    | zero => simp at hd
    | succ i => exact ⟨i, rfl, by simpa using hd⟩
  · rintro ⟨i, rfl, hi⟩
    simpa using hi

theorem deref_bound {heap : List Obj} {p : Nat} {o : Obj} (hd : deref heap p = some o) :
    0 < p ∧ p ≤ heap.length := by
  obtain ⟨i, rfl, hi⟩ := deref_eq_some.mp hd
  have hlt : i < heap.length := by
    by_contra hge
    rw [List.get?_eq_none.mpr (by omega)] at hi
    simp at hi
  omega

theorem deref_append {heap : List Obj} {p : Nat} {o : Obj} (l : List Obj)
    (hd : deref heap p = some o) : deref (heap ++ l) p = some o := by
  have hb := deref_bound hd
  obtain ⟨i, rfl, hi⟩ := deref_eq_some.mp hd
  refine deref_eq_some.mpr ⟨i, rfl, ?_⟩
  simp only [List.get?_eq_getElem?] at hi ⊢
  rw [List.getElem?_append_left (by omega)]
  exact hi

theorem deref_fresh (heap : List Obj) (o : Obj) :
    deref (heap ++ [o]) (heap.length + 1) = some o := by
  refine deref_eq_some.mpr ⟨heap.length, rfl, ?_⟩
  simp

theorem deref_snoc {heap : List Obj} {p : Nat} {o c : Obj}
    (hd : deref (heap ++ [c]) p = some o) :
    deref heap p = some o ∨ (p = heap.length + 1 ∧ o = c) := by
  have hb := deref_bound hd
  obtain ⟨i, rfl, hi⟩ := deref_eq_some.mp hd
  simp only [List.length_append, List.length_singleton] at hb
  by_cases hlt : i < heap.length
  · left
    refine deref_eq_some.mpr ⟨i, rfl, ?_⟩
    simp only [List.get?_eq_getElem?] at hi ⊢
    rw [List.getElem?_append_left hlt] at hi
    exact hi
  · right
    have hie : i = heap.length := by omega
    subst hie
    simp at hi
    exact ⟨rfl, hi.symm⟩

/-! ## How one step changes the state -/

theorem pool_deliver_cases {c : Completion} {t : PoolTask} {st st1 : State}
    (h : pool_deliver c t st = some st1) :
    st1 = st ∨ ∃ m fn arg,
      st1 = { st with log := st.log ++ [Event.bridge_call t.os_ m fn arg] } := by
  cases t with
  | single r =>
    cases c
    · simp only [pool_deliver, __exec_system_pool_receiver.set_value] at h
      split at h
      · exact Or.inr ⟨_, _, _, (Option.some.inj h).symm⟩
      · simp at h
    · simp only [pool_deliver, __exec_system_pool_receiver.set_stopped] at h
      split at h
      · exact Or.inr ⟨_, _, _, (Option.some.inj h).symm⟩
      · simp at h
    · simp only [pool_deliver, __exec_system_pool_receiver.set_error] at h
      exact Or.inl (Option.some.inj h).symm
  | bulk r =>
    cases c
    · simp only [pool_deliver, __exec_system_bulk_pool_receiver.set_value] at h
      split at h
      · exact Or.inr ⟨_, _, _, (Option.some.inj h).symm⟩
      · simp at h
    · simp only [pool_deliver, __exec_system_bulk_pool_receiver.set_stopped] at h
      split at h
      · exact Or.inr ⟨_, _, _, (Option.some.inj h).symm⟩
      · simp at h
    · simp only [pool_deliver, __exec_system_bulk_pool_receiver.set_error] at h
      exact Or.inl (Option.some.inj h).symm

/-- The four ways in which a step changes the state: it allocates one object,
it starts a pool operation, it changes nothing, or it completes a started pool
operation. -/
theorem step_cases {st st1 : State} {a : Action} (h : step st a = some st1) :
    (∃ c : Obj, c.back_pointer_ok (st.heap.length + 1) = true ∧
        (∀ os, a ≠ Action.start os) ∧
        st1 = { st with heap := st.heap ++ [c] }) ∨
    (∃ os t, a = Action.start os ∧ pool_task_of st.heap os = some t ∧
        st1 = { st with queue := st.queue ++ [t] }) ∨
    ((∀ os, a ≠ Action.start os) ∧ st1 = st) ∨
    (∃ i c t, a = Action.pool_complete i c ∧ st.queue.get? i = some t ∧
        pool_deliver c t { st with queue := st.queue.eraseIdx i } = some st1) := by
  cases a with
  | get_scheduler ctx =>
    left
    simp only [step, __exec_system_context_impl.get_scheduler] at h
    split at h
    · simp only [Option.map_some', Option.some.injEq, alloc] at h
      refine ⟨_, ?_, by simp, h.symm⟩
      rfl
    · simp at h
  | schedule sched =>
    left
    simp only [step, __exec_system_scheduler_impl.schedule] at h
    split at h
    · simp only [Option.map_some', Option.some.injEq, alloc] at h
      refine ⟨_, ?_, by simp, h.symm⟩
      rfl
    · simp at h
  | bulk sched shp fn =>
    left
    simp only [step, __exec_system_scheduler_impl.bulk] at h
    split at h
    · simp only [Option.map_some', Option.some.injEq, alloc] at h
      refine ⟨_, ?_, by simp, h.symm⟩
      rfl
    · simp at h
  | connect snd recv =>
    left
    simp only [step, __exec_system_sender_interface.connect] at h
    split at h
    · simp only [Option.map_some', Option.some.injEq, alloc,
        __exec_system_sender_impl.connect] at h
      exact ⟨_, by simp [Obj.back_pointer_ok, pool_connect], by simp, h.symm⟩
    · simp only [Option.map_some', Option.some.injEq, alloc,
        __exec_system_bulk_sender_impl.connect] at h
      exact ⟨_, by simp [Obj.back_pointer_ok, pool_connect], by simp, h.symm⟩
    · simp at h
  | start os =>
    right; left
    simp only [step, __exec_system_operation_state_interface.start] at h
    split at h
    · rename_i r pos hd
      exact ⟨os, PoolTask.single pos.receiver, rfl, by simp [pool_task_of, hd], by
        simpa [pool_start] using h.symm⟩
    · rename_i r f pos hd
      exact ⟨os, PoolTask.bulk pos.receiver, rfl, by simp [pool_task_of, hd], by
        simpa [pool_start] using h.symm⟩
    · simp at h
  | discard q =>
    right; right; left
    simp only [step, Option.some.injEq] at h
    exact ⟨by simp, h.symm⟩
  | pool_complete i c =>
    right; right; right
    simp only [step, pool_complete] at h
    split at h
    · rename_i t ht
      exact ⟨i, c, t, rfl, ht, h⟩
    · simp at h

theorem step_heap {st st1 : State} {a : Action} (h : step st a = some st1) :
    ∃ l, st1.heap = st.heap ++ l := by
  rcases step_cases h with ⟨c, -, -, rfl⟩ | ⟨os, t, -, -, rfl⟩ | ⟨-, rfl⟩ | ⟨i, c, t, -, -, hd⟩
  · exact ⟨[c], rfl⟩
  · exact ⟨[], by simp⟩
  · exact ⟨[], by simp⟩
  · rcases pool_deliver_cases hd with rfl | ⟨m, fn, arg, rfl⟩
    · exact ⟨[], by simp⟩
    · exact ⟨[], by simp⟩

theorem run_heap {acts : List Action} :
    ∀ {st st1 : State}, run st acts = some st1 → ∃ l, st1.heap = st.heap ++ l := by
  induction acts with
  | nil =>
    intro st st1 h
    simp only [run, Option.some.injEq] at h
    exact ⟨[], by simp [h]⟩
  | cons a rest ih =>
    intro st st1 h
    simp only [run] at h
    split at h
    · rename_i st0 hs
      obtain ⟨l1, h1⟩ := step_heap hs
      obtain ⟨l2, h2⟩ := ih h
      exact ⟨l1 ++ l2, by rw [h2, h1, List.append_assoc]⟩
    · simp at h

/-- Objects are never freed or overwritten: a pointer that refers to an object
keeps referring to the same object along a run. -/
theorem run_deref {acts : List Action} {st st1 : State} (h : run st acts = some st1)
    {p : Nat} {o : Obj} (hd : deref st.heap p = some o) : deref st1.heap p = some o := by
  obtain ⟨l, hl⟩ := run_heap h
  rw [hl]
  exact deref_append l hd

theorem pool_task_of_os {heap : List Obj}
    (hok : ∀ (a : Nat) (o : Obj), deref heap a = some o → o.back_pointer_ok a = true)
    {os : Nat} {t : PoolTask} (h : pool_task_of heap os = some t) : t.os_ = os := by
  unfold pool_task_of at h
  split at h
  · rename_i r pos hd
    have hb := hok os _ hd
    simp only [Obj.back_pointer_ok, decide_eq_true_eq] at hb
    rw [← Option.some.inj h]
    exact hb
  · rename_i r f pos hd
    have hb := hok os _ hd
    simp only [Obj.back_pointer_ok, decide_eq_true_eq] at hb
    rw [← Option.some.inj h]
    exact hb
  · simp at h

theorem init_wf : State.init.wf := by
  refine ⟨?_, ?_, ?_⟩
  · intro a o hd
    have hb := deref_bound hd
    simp only [State.init, List.length_singleton] at hb
    have ha : a = 1 := by omega
    subst ha
    simp only [State.init, deref] at hd
    simp at hd
    subst hd
    rfl
  · intro t ht
    simp [State.init] at ht
  · intro e he
    simp [State.init] at he

theorem step_wf {st st1 : State} {a : Action} (hwf : st.wf) (h : step st a = some st1) :
    st1.wf := by
  obtain ⟨hheap, hq, hlog⟩ := hwf
  rcases step_cases h with ⟨c, hc, -, rfl⟩ | ⟨os, t, -, ht, rfl⟩ | ⟨-, rfl⟩ | ⟨i, c, t, -, ht, hd⟩
  · refine ⟨?_, ?_, ?_⟩
    · intro a o hd
      rcases deref_snoc hd with h1 | ⟨rfl, rfl⟩
      · exact hheap a o h1
      · exact hc
    · intro t ht
      simp only [List.length_append, List.length_singleton]
      exact Nat.le_succ_of_le (hq t ht)
    · intro e he
      simp only [List.length_append, List.length_singleton]
      exact Nat.le_succ_of_le (hlog e he)
  · refine ⟨hheap, ?_, hlog⟩
    intro t1 ht1
    simp only [List.mem_append, List.mem_singleton] at ht1
    rcases ht1 with h1 | rfl
    · exact hq t1 h1
    · have hos := pool_task_of_os hheap ht
      unfold pool_task_of at ht
      split at ht
      · rename_i hd
        rw [hos]
        exact (deref_bound hd).2
      · rename_i hd
        rw [hos]
        exact (deref_bound hd).2
      · simp at ht
  · exact ⟨hheap, hq, hlog⟩
  · have htq : t ∈ st.queue := List.get?_mem ht
    have hq1 : ∀ t1 ∈ st.queue.eraseIdx i, t1.os_ ≤ st.heap.length :=
      fun t1 h1 => hq t1 (List.mem_of_mem_eraseIdx h1)
    rcases pool_deliver_cases hd with rfl | ⟨m, fn, arg, rfl⟩
    · exact ⟨hheap, hq1, hlog⟩
    · refine ⟨hheap, hq1, ?_⟩
      intro e he
      simp only [List.mem_append, List.mem_singleton] at he
      rcases he with h1 | rfl
      · exact hlog e h1
      · exact hq t htq

theorem run_wf {acts : List Action} :
    ∀ {st st1 : State}, st.wf → run st acts = some st1 → st1.wf := by
  induction acts with
  | nil =>
    intro st st1 hwf h
    simp only [run, Option.some.injEq] at h
    exact h ▸ hwf
  | cons a rest ih =>
    intro st st1 hwf h
    simp only [run] at h
    split at h
    · rename_i st0 hs
      exact ih (step_wf hwf hs) h
    · simp at h

/-- Nothing of the operation state at `os` is in the pool or in the log. -/
def untouched (os : Nat) (st : State) : Prop :=
  (∀ t ∈ st.queue, t.os_ ≠ os) ∧ (∀ e ∈ st.log, e.os ≠ os)

theorem step_untouched {st st1 : State} {a : Action} {os : Nat} (hwf : st.wf)
    (hu : untouched os st) (ha : a ≠ Action.start os) (h : step st a = some st1) :
    untouched os st1 := by
  obtain ⟨hq, hlog⟩ := hu
  rcases step_cases h with ⟨c, -, -, rfl⟩ | ⟨os1, t, rfl, ht, rfl⟩ | ⟨-, rfl⟩ | ⟨i, c, t, -, ht, hd⟩
  · exact ⟨hq, hlog⟩
  · refine ⟨?_, hlog⟩
    intro t1 ht1
    simp only [List.mem_append, List.mem_singleton] at ht1
    rcases ht1 with h1 | rfl
    · exact hq t1 h1
    · rw [pool_task_of_os hwf.1 ht]
      intro he
      exact ha (by rw [he])
  · exact ⟨hq, hlog⟩
  · have htq : t ∈ st.queue := List.get?_mem ht
    have hq1 : ∀ t1 ∈ st.queue.eraseIdx i, t1.os_ ≠ os :=
      fun t1 h1 => hq t1 (List.mem_of_mem_eraseIdx h1)
    rcases pool_deliver_cases hd with rfl | ⟨m, fn, arg, rfl⟩
    · exact ⟨hq1, hlog⟩
    · refine ⟨hq1, ?_⟩
      intro e he
      simp only [List.mem_append, List.mem_singleton] at he
      rcases he with h1 | rfl
      · exact hlog e h1
      · exact hq t htq

theorem run_untouched {acts : List Action} {os : Nat} :
    ∀ {st st1 : State}, st.wf → untouched os st → Action.start os ∉ acts →
      run st acts = some st1 → untouched os st1 := by
  induction acts with
  | nil =>
    intro st st1 _ hu _ h
    simp only [run, Option.some.injEq] at h
    exact h ▸ hu
  | cons a rest ih =>
    intro st st1 hwf hu hn h
    simp only [run] at h
    simp only [List.mem_cons, not_or] at hn
    split at h
    · rename_i st0 hs
      exact ih (step_wf hwf hs) (step_untouched hwf hu (Ne.symm hn.1) hs) hn.2 h
    · simp at h

/-! ## Scheduler equality -/

theorem is_scheduler_impl_iff {heap : List Obj} {p : Nat} :
    is_scheduler_impl heap p = true ↔
      ∃ ctx_ pool_scheduler_, deref heap p = some (Obj.scheduler_impl ctx_ pool_scheduler_) := by
  unfold is_scheduler_impl
  split
  · rename_i c ps hd
    simp [hd]
  · rename_i hn
    simp only [Bool.false_eq_true, false_iff, not_exists]
    intro c ps hd
    exact hn c ps hd

theorem dynamic_cast_scheduler_impl_eq (heap : List Obj) (p : Nat) :
    dynamic_cast_scheduler_impl heap p = if is_scheduler_impl heap p then p else 0 := by
  unfold dynamic_cast_scheduler_impl is_scheduler_impl
  split <;> simp

/-- On an object of class `__exec_system_scheduler_impl`, `equals` is equality
of addresses. -/
theorem equals_eq_decide (st : State) {a : Nat} (ha : is_scheduler_impl st.heap a = true)
    (b : Nat) : __exec_system_scheduler_impl.equals st a b = some (decide (b = a)) := by
  obtain ⟨c, ps, hd⟩ := is_scheduler_impl_iff.mp ha
  have hpos := (deref_bound hd).1
  simp only [__exec_system_scheduler_impl.equals, hd, dynamic_cast_scheduler_impl_eq]
  by_cases hb : is_scheduler_impl st.heap b = true
  · simp [hb]
  · have hne : b ≠ a := fun h => hb (h ▸ ha)
    have h0 : ¬ (0 = a) := by omega
    simp [hb, hne, h0]

theorem equals_eq_some_true {st : State} {a b : Nat}
    (h : __exec_system_scheduler_impl.equals st a b = some true) :
    is_scheduler_impl st.heap a = true ∧ b = a := by
  have ha : is_scheduler_impl st.heap a = true := by
    unfold __exec_system_scheduler_impl.equals at h
    unfold is_scheduler_impl
    split at h
    · rename_i hd
      simp [hd]
    · simp at h
  rw [equals_eq_decide st ha] at h
  exact ⟨ha, by simpa using h⟩

theorem is_scheduler_impl_append {heap : List Obj} {p : Nat} (l : List Obj)
    (h : is_scheduler_impl heap p = true) : is_scheduler_impl (heap ++ l) p = true := by
  obtain ⟨c, ps, hd⟩ := is_scheduler_impl_iff.mp h
  exact is_scheduler_impl_iff.mpr ⟨c, ps, deref_append l hd⟩

theorem context_get_scheduler_spec {st : State} {ctx : Nat}
    (hctx : deref st.heap ctx = some Obj.context_impl) :
    __exec_system_context_impl.get_scheduler ctx st =
      some (st.heap.length + 1,
        { st with heap := st.heap ++ [Obj.scheduler_impl ctx (pool_get_scheduler ctx)] }) := by
  simp [__exec_system_context_impl.get_scheduler, hctx, alloc]

theorem system_context_get_scheduler_spec {st : State} {ctx : system_context}
    (hctx : deref st.heap ctx.impl_ = some Obj.context_impl) :
    ctx.get_scheduler st =
      some (⟨st.heap.length + 1⟩,
        { st with heap := st.heap ++
            [Obj.scheduler_impl ctx.impl_ (pool_get_scheduler ctx.impl_)] }) := by
  simp only [system_context.get_scheduler, context_get_scheduler_spec hctx]

theorem scheduler_schedule_spec {st : State} {sched : Nat}
    (hs : is_scheduler_impl st.heap sched = true) :
    ∃ pool_sender_, __exec_system_scheduler_impl.schedule sched st =
      some (st.heap.length + 1,
        { st with heap := st.heap ++ [Obj.sender_impl sched pool_sender_] }) := by
  obtain ⟨c, ps, hd⟩ := is_scheduler_impl_iff.mp hs
  exact ⟨pool_schedule ps, by simp [__exec_system_scheduler_impl.schedule, hd, alloc]⟩

theorem scheduler_bulk_eq_schedule (sched : Nat) (shp : __exec_system_bulk_shape)
    (fn : __exec_system_bulk_function) (st : State) :
    __exec_system_scheduler_impl.bulk sched shp fn st =
      __exec_system_scheduler_impl.schedule sched st := rfl

theorem get_completion_scheduler_fresh_sender (st : State) (sched : Nat)
    (pool_sender_ : PoolSender) :
    __exec_system_sender_interface.get_completion_scheduler (st.heap.length + 1)
      { st with heap := st.heap ++ [Obj.sender_impl sched pool_sender_] } = some sched := by
  simp [__exec_system_sender_interface.get_completion_scheduler, deref_fresh]

theorem is_sender_impl_cases {heap : List Obj} {p : Nat} (h : is_sender_impl heap p = true) :
    (∃ sc ps, deref heap p = some (Obj.sender_impl sc ps)) ∨
    (∃ sc ps, deref heap p = some (Obj.bulk_sender_impl sc ps)) := by
  unfold is_sender_impl at h
  split at h
  · rename_i sc ps hd
    exact Or.inl ⟨sc, ps, hd⟩
  · rename_i sc ps hd
    exact Or.inr ⟨sc, ps, hd⟩
  · simp at h

/-- What `connect` does on either sender class: it allocates one operation
state `c` that stores the bridge; the pool operation `t` stored in it, when
completed in any state in which `c` is still in place, calls the bridge as
listed. -/
theorem sender_connect_spec {st : State} {snd : Nat} (b : __exec_system_receiver)
    (hs : is_sender_impl st.heap snd = true) :
    ∃ c t, __exec_system_sender_interface.connect snd b st =
        some (st.heap.length + 1, { st with heap := st.heap ++ [c] }) ∧
      c.back_pointer_ok (st.heap.length + 1) = true ∧
      pool_task_of (st.heap ++ [c]) (st.heap.length + 1) = some t ∧
      t.os_ = st.heap.length + 1 ∧
      ∀ st2 : State, deref st2.heap (st.heap.length + 1) = some c →
        pool_deliver Completion.set_value t st2 =
          some { st2 with log := st2.log ++
            [Event.bridge_call (st.heap.length + 1) BridgeMember.set_value
              b.set_value b.cpp_recv_] } ∧
        pool_deliver Completion.set_stopped t st2 =
          some { st2 with log := st2.log ++
            [Event.bridge_call (st.heap.length + 1) BridgeMember.set_stopped
              b.set_stopped (VoidPtr.cpp_recv_of_os (st.heap.length + 1))] } ∧
        pool_deliver Completion.set_error t st2 = some st2 := by
  rcases is_sender_impl_cases hs with ⟨sc, ps, hd⟩ | ⟨sc, ps, hd⟩
  · refine ⟨Obj.operation_state_impl b (pool_connect ps ⟨st.heap.length + 1⟩),
      PoolTask.single ⟨st.heap.length + 1⟩, ?_, ?_, ?_, rfl, ?_⟩
    · simp [__exec_system_sender_interface.connect, hd, __exec_system_sender_impl.connect,
        alloc]
    · simp [Obj.back_pointer_ok, pool_connect]
    · simp [pool_task_of, deref_fresh, pool_connect]
    · intro st2 h2
      simp [pool_deliver, __exec_system_pool_receiver.set_value,
        __exec_system_pool_receiver.set_stopped, __exec_system_pool_receiver.set_error,
        h2, invoke]
  · refine ⟨Obj.bulk_operation_state_impl b none (pool_connect ps ⟨st.heap.length + 1⟩),
      PoolTask.bulk ⟨st.heap.length + 1⟩, ?_, ?_, ?_, rfl, ?_⟩
    · simp [__exec_system_sender_interface.connect, hd,
        __exec_system_bulk_sender_impl.connect, alloc]
    · simp [Obj.back_pointer_ok, pool_connect]
    · simp [pool_task_of, deref_fresh, pool_connect]
    · intro st2 h2
      simp [pool_deliver, __exec_system_bulk_pool_receiver.set_value,
        __exec_system_bulk_pool_receiver.set_stopped,
        __exec_system_bulk_pool_receiver.set_error, h2, invoke]

/-! ## Claims -/

/-- What the code does for two calls of `get_scheduler()` on one context, with
any steps in between: the two handles wrap two distinct implementation objects,
and `operator==`, which compares the addresses of the implementation objects,
is false between them in both directions, while each of the two handles is
equal to itself. -/
theorem get_scheduler_handles_compare_by_identity (st : State) (ctx : system_context)
    (hctx : deref st.heap ctx.impl_ = some Obj.context_impl) :
    ∃ s1 st1, ctx.get_scheduler st = some (s1, st1) ∧
      ∀ acts st2, run st1 acts = some st2 →
        ∃ s2 st3, ctx.get_scheduler st2 = some (s2, st3) ∧
          system_scheduler.operator_eq st3 s1 s2 = some false ∧
          system_scheduler.operator_eq st3 s2 s1 = some false ∧
          system_scheduler.operator_eq st3 s1 s1 = some true ∧
          system_scheduler.operator_eq st3 s2 s2 = some true := by
  refine ⟨_, _, system_context_get_scheduler_spec hctx, ?_⟩
  · intro acts st2 hrun
    have h1 : is_scheduler_impl
        (st.heap ++ [Obj.scheduler_impl ctx.impl_ (pool_get_scheduler ctx.impl_)])
        (st.heap.length + 1) = true :=
      is_scheduler_impl_iff.mpr ⟨_, _, deref_fresh _ _⟩
    obtain ⟨l, hl⟩ := run_heap hrun
    simp only at hl
    have hctx2 : deref st2.heap ctx.impl_ = some Obj.context_impl := by
      rw [hl]
      exact deref_append _ (deref_append _ hctx)
    have h1b : is_scheduler_impl st2.heap (st.heap.length + 1) = true := by
      rw [hl]
      exact is_scheduler_impl_append l h1
    have hlt : st.heap.length + 1 ≤ st2.heap.length :=
      (deref_bound (is_scheduler_impl_iff.mp h1b).choose_spec.choose_spec).2
    refine ⟨_, _, system_context_get_scheduler_spec hctx2, ?_⟩
    · generalize hst3 : ({ st2 with heap := st2.heap ++
          [Obj.scheduler_impl ctx.impl_ (pool_get_scheduler ctx.impl_)] } : State) = st3
      have hheap : st3.heap = st2.heap ++
          [Obj.scheduler_impl ctx.impl_ (pool_get_scheduler ctx.impl_)] := by
        rw [← hst3]
      have ha : is_scheduler_impl st3.heap (st.heap.length + 1) = true := by
        rw [hheap]
        exact is_scheduler_impl_append _ h1b
      have hb : is_scheduler_impl st3.heap (st2.heap.length + 1) = true := by
        rw [hheap]
        exact is_scheduler_impl_iff.mpr ⟨_, _, deref_fresh _ _⟩
      simp only [system_scheduler.operator_eq, equals_eq_decide st3 ha, equals_eq_decide st3 hb,
        Option.some.injEq, decide_eq_false_iff_not, decide_eq_true_eq, and_true]
      omega

theorem get_scheduler_handles_compare_by_identity_witness :
    deref State.init.heap system_context.new.impl_ = some Obj.context_impl ∧
    ∃ s1 st1 s2 st3,
      system_context.new.get_scheduler State.init = some (s1, st1) ∧
      system_context.new.get_scheduler st1 = some (s2, st3) ∧
      system_scheduler.operator_eq st3 s1 s2 = some false ∧
      system_scheduler.operator_eq st3 s1 s1 = some true := by
  refine ⟨by decide, ?_⟩
  obtain ⟨s1, st1, h1, h⟩ :=
    get_scheduler_handles_compare_by_identity State.init system_context.new (by decide)
  obtain ⟨s2, st3, h2, h3, -, h4, -⟩ := h [] st1 rfl
  exact ⟨s1, st1, s2, st3, h1, h2, h3, h4⟩

/-- C1 fails on the code: in the initial state two calls of `get_scheduler()`
on the default context return the handles of the objects at addresses 2 and 3;
both objects store the same `ctx_` and the same pool scheduler, yet
`operator==` on the two handles is false, because `equals` compares the
address of the right-hand object with `this`. -/
theorem get_scheduler_twice_not_equal :
    system_context.new.get_scheduler State.init =
      some (⟨2⟩, ⟨[Obj.context_impl, Obj.scheduler_impl 1 ⟨1⟩], [], []⟩) ∧
    system_context.new.get_scheduler ⟨[Obj.context_impl, Obj.scheduler_impl 1 ⟨1⟩], [], []⟩ =
      some (⟨3⟩,
        ⟨[Obj.context_impl, Obj.scheduler_impl 1 ⟨1⟩, Obj.scheduler_impl 1 ⟨1⟩], [], []⟩) ∧
    system_scheduler.operator_eq
      ⟨[Obj.context_impl, Obj.scheduler_impl 1 ⟨1⟩, Obj.scheduler_impl 1 ⟨1⟩], [], []⟩
      ⟨2⟩ ⟨3⟩ = some false := by
  decide

/-- C9: scheduler equality is an equivalence relation.  For `equals` on the
implementation objects and for `operator==` on handles: a handle whose pointer
refers to a scheduler implementation is equal to itself; `a == b` implies
`b == a`; `a == b` and `b == c` imply `a == c`. -/
theorem scheduler_equality_is_equivalence (st : State) (a b c : system_scheduler)
    (ha : is_scheduler_impl st.heap a.scheduler_interface_ = true) :
    (system_scheduler.operator_eq st a a = some true ∧
      (system_scheduler.operator_eq st a b = some true →
        system_scheduler.operator_eq st b a = some true) ∧
      (system_scheduler.operator_eq st a b = some true →
        system_scheduler.operator_eq st b c = some true →
        system_scheduler.operator_eq st a c = some true)) ∧
    (__exec_system_scheduler_impl.equals st a.scheduler_interface_ a.scheduler_interface_
        = some true ∧
      (__exec_system_scheduler_impl.equals st a.scheduler_interface_ b.scheduler_interface_
          = some true →
        __exec_system_scheduler_impl.equals st b.scheduler_interface_ a.scheduler_interface_
          = some true) ∧
      (__exec_system_scheduler_impl.equals st a.scheduler_interface_ b.scheduler_interface_
          = some true →
        __exec_system_scheduler_impl.equals st b.scheduler_interface_ c.scheduler_interface_
          = some true →
        __exec_system_scheduler_impl.equals st a.scheduler_interface_ c.scheduler_interface_
          = some true)) := by
  have key : __exec_system_scheduler_impl.equals st a.scheduler_interface_
        a.scheduler_interface_ = some true ∧
      (__exec_system_scheduler_impl.equals st a.scheduler_interface_ b.scheduler_interface_
          = some true →
        __exec_system_scheduler_impl.equals st b.scheduler_interface_ a.scheduler_interface_
          = some true) ∧
      (__exec_system_scheduler_impl.equals st a.scheduler_interface_ b.scheduler_interface_
          = some true →
        __exec_system_scheduler_impl.equals st b.scheduler_interface_ c.scheduler_interface_
          = some true →
        __exec_system_scheduler_impl.equals st a.scheduler_interface_ c.scheduler_interface_
          = some true) := by
    have hrefl : __exec_system_scheduler_impl.equals st a.scheduler_interface_
        a.scheduler_interface_ = some true := by
      rw [equals_eq_decide st ha]
      simp
    refine ⟨hrefl, ?_, ?_⟩
    · intro hab
      rw [(equals_eq_some_true hab).2]
      exact hrefl
    · intro hab hbc
      obtain ⟨-, h1⟩ := equals_eq_some_true hab
      obtain ⟨-, h2⟩ := equals_eq_some_true hbc
      rw [h2, h1]
      exact hrefl
  exact ⟨key, key⟩

theorem scheduler_equality_is_equivalence_witness :
    is_scheduler_impl [Obj.context_impl, Obj.scheduler_impl 1 ⟨1⟩] 2 = true ∧
    system_scheduler.operator_eq ⟨[Obj.context_impl, Obj.scheduler_impl 1 ⟨1⟩], [], []⟩
      ⟨2⟩ ⟨2⟩ = some true := by
  refine ⟨by decide, ?_⟩
  obtain ⟨⟨h1, h2, h3⟩, -⟩ := scheduler_equality_is_equivalence
    ⟨[Obj.context_impl, Obj.scheduler_impl 1 ⟨1⟩], [], []⟩ ⟨2⟩ ⟨2⟩ ⟨2⟩ (by decide)
  exact h3 (h2 h1) h1

/-- C5: for every scheduler handle `sched` (whose pointer refers to a scheduler
implementation), `schedule(sched)` returns a sender whose environment, queried
right away, reports for the value signal and for the stopped signal a
completion scheduler that compares equal to `sched`. -/
theorem schedule_completion_scheduler_eq (st : State) (sched : system_scheduler)
    (hs : is_scheduler_impl st.heap sched.scheduler_interface_ = true) :
    ∃ snd st1 env, tag_invoke_schedule sched st = some (snd, st1) ∧
      snd.tag_invoke_get_env st1 = some env ∧
      system_scheduler.operator_eq st1 env.get_completion_scheduler_set_value sched
        = some true ∧
      system_scheduler.operator_eq st1 env.get_completion_scheduler_set_stopped sched
        = some true := by
  obtain ⟨ps, hsch⟩ := scheduler_schedule_spec hs
  generalize hst1 : ({ st with heap := st.heap ++
      [Obj.sender_impl sched.scheduler_interface_ ps] } : State) = st1 at hsch
  have hheap : st1.heap = st.heap ++ [Obj.sender_impl sched.scheduler_interface_ ps] := by
    rw [← hst1]
  have hs1 : is_scheduler_impl st1.heap sched.scheduler_interface_ = true := by
    rw [hheap]
    exact is_scheduler_impl_append _ hs
  have hcs : __exec_system_sender_interface.get_completion_scheduler (st.heap.length + 1) st1
      = some sched.scheduler_interface_ := by
    rw [← hst1]
    exact get_completion_scheduler_fresh_sender st _ ps
  refine ⟨⟨st.heap.length + 1⟩, st1, ⟨sched.scheduler_interface_⟩, ?_, ?_, ?_, ?_⟩
  · simp only [tag_invoke_schedule, hsch]
  · simp only [system_sender.tag_invoke_get_env, hcs]
  · simp [system_scheduler.operator_eq, __env.get_completion_scheduler_set_value,
      equals_eq_decide st1 hs1]
  · simp [system_scheduler.operator_eq, __env.get_completion_scheduler_set_stopped,
      equals_eq_decide st1 hs1]

theorem schedule_completion_scheduler_eq_witness :
    is_scheduler_impl [Obj.context_impl, Obj.scheduler_impl 1 ⟨1⟩] 2 = true ∧
    ∃ snd st1 env,
      tag_invoke_schedule ⟨2⟩ ⟨[Obj.context_impl, Obj.scheduler_impl 1 ⟨1⟩], [], []⟩
        = some (snd, st1) ∧
      snd.tag_invoke_get_env st1 = some env ∧
      system_scheduler.operator_eq st1 env.get_completion_scheduler_set_value ⟨2⟩
        = some true ∧
      system_scheduler.operator_eq st1 env.get_completion_scheduler_set_stopped ⟨2⟩
        = some true :=
  ⟨by decide, schedule_completion_scheduler_eq
    ⟨[Obj.context_impl, Obj.scheduler_impl 1 ⟨1⟩], [], []⟩ ⟨2⟩ (by decide)⟩

/-- C7: for every scheduler handle `sched` (whose pointer refers to a scheduler
implementation), predecessor, shape and function, the environment of the bulk
sender that `bulk` builds on `sched` reports, without any connect or start, for
the value signal and for the stopped signal a completion scheduler that
compares equal to `sched`; and the sender returned by the low-level
`bulk(shp, fn)` has a `get_completion_scheduler()` that is `equals`-equal, in
both directions, to the scheduler it was called on. -/
theorem bulk_completion_scheduler_eq {Pred Fn : Type} (st : State) (sched : system_scheduler)
    (pred : Pred) (shape : Int) (fun_ : Fn) (shp : __exec_system_bulk_shape)
    (fn : __exec_system_bulk_function)
    (hs : is_scheduler_impl st.heap sched.scheduler_interface_ = true) :
    (system_scheduler.operator_eq st
        (tag_invoke_bulk sched pred shape fun_).tag_invoke_get_env.get_completion_scheduler_set_value
        sched = some true ∧
      system_scheduler.operator_eq st
        (tag_invoke_bulk sched pred shape fun_).tag_invoke_get_env.get_completion_scheduler_set_stopped
        sched = some true) ∧
    ∃ snd st1 cs,
      __exec_system_scheduler_impl.bulk sched.scheduler_interface_ shp fn st = some (snd, st1) ∧
      __exec_system_sender_interface.get_completion_scheduler snd st1 = some cs ∧
      __exec_system_scheduler_impl.equals st1 cs sched.scheduler_interface_ = some true ∧
      __exec_system_scheduler_impl.equals st1 sched.scheduler_interface_ cs = some true := by
  refine ⟨⟨?_, ?_⟩, ?_⟩
  · simp [system_scheduler.operator_eq, __env.get_completion_scheduler_set_value,
      system_bulk_sender.tag_invoke_get_env, tag_invoke_bulk, equals_eq_decide st hs]
  · simp [system_scheduler.operator_eq, __env.get_completion_scheduler_set_stopped,
      system_bulk_sender.tag_invoke_get_env, tag_invoke_bulk, equals_eq_decide st hs]
  · obtain ⟨ps, hsch⟩ := scheduler_schedule_spec hs
    generalize hst1 : ({ st with heap := st.heap ++
        [Obj.sender_impl sched.scheduler_interface_ ps] } : State) = st1 at hsch
    have hheap : st1.heap = st.heap ++ [Obj.sender_impl sched.scheduler_interface_ ps] := by
      rw [← hst1]
    have hs1 : is_scheduler_impl st1.heap sched.scheduler_interface_ = true := by
      rw [hheap]
      exact is_scheduler_impl_append _ hs
    have hcs : __exec_system_sender_interface.get_completion_scheduler (st.heap.length + 1) st1
        = some sched.scheduler_interface_ := by
      rw [← hst1]
      exact get_completion_scheduler_fresh_sender st _ ps
    refine ⟨st.heap.length + 1, st1, sched.scheduler_interface_, ?_, hcs, ?_, ?_⟩
    · rw [scheduler_bulk_eq_schedule, hsch]
    · simp [equals_eq_decide st1 hs1]
    · simp [equals_eq_decide st1 hs1]

theorem bulk_completion_scheduler_eq_witness :
    is_scheduler_impl [Obj.context_impl, Obj.scheduler_impl 1 ⟨1⟩] 2 = true ∧
    system_scheduler.operator_eq ⟨[Obj.context_impl, Obj.scheduler_impl 1 ⟨1⟩], [], []⟩
      (tag_invoke_bulk ⟨2⟩ () 3 ()).tag_invoke_get_env.get_completion_scheduler_set_value
      ⟨2⟩ = some true ∧
    system_scheduler.operator_eq ⟨[Obj.context_impl, Obj.scheduler_impl 1 ⟨1⟩], [], []⟩
      (tag_invoke_bulk ⟨2⟩ () 3 ()).tag_invoke_get_env.get_completion_scheduler_set_stopped
      ⟨2⟩ = some true :=
  ⟨by decide, (bulk_completion_scheduler_eq
    ⟨[Obj.context_impl, Obj.scheduler_impl 1 ⟨1⟩], [], []⟩ ⟨2⟩ () 3 () 3 0 (by decide)).1⟩

/-- C8: for every scheduler handle `sched` obtained from a system context,
`get_forward_progress_guarantee(sched)` returns `parallel`, right after
`get_scheduler()` and after any further steps. -/
theorem forward_progress_guarantee_is_parallel (st : State) (ctx : system_context)
    (hctx : deref st.heap ctx.impl_ = some Obj.context_impl) :
    ∃ sched st1, ctx.get_scheduler st = some (sched, st1) ∧
      ∀ acts st2, run st1 acts = some st2 →
        tag_invoke_get_forward_progress_guarantee sched st2
          = some forward_progress_guarantee.parallel := by
  refine ⟨_, _, system_context_get_scheduler_spec hctx, ?_⟩
  intro acts st2 hrun
  have hd := run_deref hrun (deref_fresh st.heap
    (Obj.scheduler_impl ctx.impl_ (pool_get_scheduler ctx.impl_)))
  simp only [tag_invoke_get_forward_progress_guarantee,
    __exec_system_scheduler_impl.get_forward_progress_guarantee, hd]

theorem forward_progress_guarantee_is_parallel_witness :
    deref State.init.heap system_context.new.impl_ = some Obj.context_impl ∧
    ∃ sched st1, system_context.new.get_scheduler State.init = some (sched, st1) ∧
      tag_invoke_get_forward_progress_guarantee sched st1
        = some forward_progress_guarantee.parallel := by
  refine ⟨by decide, ?_⟩
  obtain ⟨sched, st1, h1, h⟩ :=
    forward_progress_guarantee_is_parallel State.init system_context.new (by decide)
  exact ⟨sched, st1, h1, h [] st1 rfl⟩

/-- C2: for every operation state created by `connect` (on either sender class)
with a bridge `b`, and in every state reached afterwards: when the pool sends
the value signal to the pool receiver stored in that operation state, exactly
one call is made, through the member `set_value` of the bridge, to the function
`b.set_value` with the argument `b.cpp_recv_`; nothing else changes, so the
member `set_stopped` is not called. -/
theorem set_value_calls_on_value_once (st : State) (snd : Nat) (b : __exec_system_receiver)
    (hs : is_sender_impl st.heap snd = true) :
    ∃ os st1 t, __exec_system_sender_interface.connect snd b st = some (os, st1) ∧
      pool_task_of st1.heap os = some t ∧ t.os_ = os ∧
      ∀ acts st2, run st1 acts = some st2 →
        pool_deliver Completion.set_value t st2 =
          some { st2 with log := st2.log ++
            [Event.bridge_call os BridgeMember.set_value b.set_value b.cpp_recv_] } := by
  obtain ⟨c, t, hc, -, ht, hos, hdel⟩ := sender_connect_spec b hs
  refine ⟨_, _, t, hc, ht, hos, ?_⟩
  intro acts st2 hrun
  exact (hdel st2 (run_deref hrun (deref_fresh st.heap c))).1

theorem set_value_calls_on_value_once_witness :
    is_sender_impl [Obj.context_impl, Obj.scheduler_impl 1 ⟨1⟩, Obj.sender_impl 2 ⟨1⟩,
      Obj.bulk_sender_impl 2 ⟨1⟩] 4 = true ∧
    ∃ os st1 t,
      __exec_system_sender_interface.connect 4 (receiver_impl 100)
        ⟨[Obj.context_impl, Obj.scheduler_impl 1 ⟨1⟩, Obj.sender_impl 2 ⟨1⟩,
          Obj.bulk_sender_impl 2 ⟨1⟩], [], []⟩ = some (os, st1) ∧
      pool_task_of st1.heap os = some t ∧
      pool_deliver Completion.set_value t st1 =
        some { st1 with log := st1.log ++
          [Event.bridge_call os BridgeMember.set_value FnPtr.set_value_trampoline
            (VoidPtr.recv_of_op 100)] } := by
  refine ⟨by decide, ?_⟩
  obtain ⟨os, st1, t, h1, h2, -, h3⟩ := set_value_calls_on_value_once
    ⟨[Obj.context_impl, Obj.scheduler_impl 1 ⟨1⟩, Obj.sender_impl 2 ⟨1⟩,
      Obj.bulk_sender_impl 2 ⟨1⟩], [], []⟩ 4 (receiver_impl 100) (by decide)
  exact ⟨os, st1, t, h1, h2, h3 [] st1 rfl⟩

/-- C3 fails on the code: a receiver is connected to `schedule(sched)` in an
`__op` placed at address 100, so the bridge stored in the operation state (at
address 4) holds `cpp_recv_ = &op.recv_`; when the pool sends the stopped
signal, the stopped trampoline is called once, but its argument is the address
of the member `cpp_recv_` inside the operation state, not the pointer that
`connect` captured. -/
theorem set_stopped_passes_address_of_member :
    schedule_scenario () 100 Completion.set_stopped =
      some ⟨[Obj.context_impl, Obj.scheduler_impl 1 ⟨1⟩, Obj.sender_impl 2 ⟨1⟩,
          Obj.operation_state_impl
            ⟨VoidPtr.recv_of_op 100, FnPtr.set_value_trampoline, FnPtr.set_stopped_trampoline⟩
            ⟨1, ⟨4⟩⟩],
        [],
        [Event.bridge_call 4 BridgeMember.set_stopped FnPtr.set_stopped_trampoline
          (VoidPtr.cpp_recv_of_os 4)]⟩ ∧
    VoidPtr.cpp_recv_of_os 4 ≠ VoidPtr.recv_of_op 100 := by
  decide

/-- C6 fails on the code: for every shape and every index function, after the
bulk sender is connected and started and the pool has completed with the value
signal, the log consists of the single call of the value trampoline, so the
index function was called with no index at all (for shape 2 the claim asks for
the indices 0 and 1).  The same holds for the sender of the low-level
`bulk(shp, fn)`. -/
theorem bulk_never_calls_index_function (shape : Int) (fn : __exec_system_bulk_function) :
    (bulk_scenario PredSender.just shape fn () 100 Completion.set_value).map State.log =
      some [Event.bridge_call 4 BridgeMember.set_value FnPtr.set_value_trampoline
        (VoidPtr.recv_of_op 100)] ∧
    (bulk_scenario PredSender.just shape fn () 100 Completion.set_value).map
      (fun s => bulk_calls s.log) = some [] ∧
    (low_level_bulk_scenario shape fn (receiver_impl 100) Completion.set_value).map State.log =
      some [Event.bridge_call 4 BridgeMember.set_value FnPtr.set_value_trampoline
        (VoidPtr.recv_of_op 100)] ∧
    (low_level_bulk_scenario shape fn (receiver_impl 100) Completion.set_value).map
      (fun s => bulk_calls s.log) = some [] :=
  ⟨rfl, rfl, rfl, rfl⟩

/-- C10 fails on the code: a bulk sender built over a predecessor that completes
with the stopped signal, of any shape and with any function, once connected and
started, completes as the pool does: when the pool sends the value signal the
value trampoline of the bridge is called and the stopped trampoline is not.
The predecessor is stored in the sender and never connected or started. -/
theorem bulk_ignores_stopped_predecessor (shape : Int) (fn : __exec_system_bulk_function) :
    (bulk_scenario PredSender.just_stopped shape fn () 100 Completion.set_value).map State.log =
      some [Event.bridge_call 4 BridgeMember.set_value FnPtr.set_value_trampoline
        (VoidPtr.recv_of_op 100)] :=
  rfl

theorem pool_deliver_set_error (t : PoolTask) (st : State) :
    pool_deliver Completion.set_error t st = some st := by
  cases t <;> rfl

/-- C12: for every started operation state `os`, single-item or bulk (its pool
operation waits in the pool at position `i`, it was started once, and no
call was made on its bridge so far): when the pool sends the error signal to
the pool receiver of `os`, the signal is consumed, neither the heap nor the log
changes, and after any further steps that do not start `os` again the log still
holds no call made on the bridge of `os`, through either member. -/
theorem set_error_fires_no_bridge_callback (st : State) (hwf : st.wf) (os i : Nat)
    (hi : (st.queue.get? i).map PoolTask.os_ = some os)
    (honce : ∀ t1 ∈ st.queue.eraseIdx i, t1.os_ ≠ os)
    (hlog : ∀ e ∈ st.log, e.os ≠ os) :
    ∃ st1, pool_complete i Completion.set_error st = some st1 ∧
      st1.heap = st.heap ∧ st1.log = st.log ∧ st1.queue = st.queue.eraseIdx i ∧
      ∀ acts st2, Action.start os ∉ acts → run st1 acts = some st2 →
        ∀ e ∈ st2.log, e.os ≠ os := by
  obtain ⟨t, ht, -⟩ := Option.map_eq_some'.mp hi
  have hpc : pool_complete i Completion.set_error st =
      some { st with queue := st.queue.eraseIdx i } := by
    simp only [pool_complete, ht, pool_deliver_set_error]
  refine ⟨_, hpc, rfl, rfl, rfl, ?_⟩
  intro acts st2 hn hrun
  have hwf1 : State.wf { st with queue := st.queue.eraseIdx i } :=
    step_wf hwf (show step st (Action.pool_complete i Completion.set_error) = some _ from hpc)
  have hu1 : untouched os { st with queue := st.queue.eraseIdx i } := ⟨honce, hlog⟩
  exact (run_untouched hwf1 hu1 hn hrun).2

theorem set_error_fires_no_bridge_callback_witness :
    State.wf ⟨[Obj.context_impl, Obj.scheduler_impl 1 ⟨1⟩, Obj.sender_impl 2 ⟨1⟩,
      Obj.operation_state_impl (receiver_impl 100) ⟨1, ⟨4⟩⟩], [PoolTask.single ⟨4⟩], []⟩ ∧
    ∃ st1,
      pool_complete 0 Completion.set_error
        ⟨[Obj.context_impl, Obj.scheduler_impl 1 ⟨1⟩, Obj.sender_impl 2 ⟨1⟩,
          Obj.operation_state_impl (receiver_impl 100) ⟨1, ⟨4⟩⟩], [PoolTask.single ⟨4⟩], []⟩
        = some st1 ∧
      st1.log = [] ∧ st1.queue = [] ∧
      ∀ st2, run st1 [Action.schedule 2, Action.discard 4] = some st2 →
        ∀ e ∈ st2.log, e.os ≠ 4 := by
  have hwf : State.wf
      ⟨[Obj.context_impl, Obj.scheduler_impl 1 ⟨1⟩, Obj.sender_impl 2 ⟨1⟩,
        Obj.operation_state_impl (receiver_impl 100) ⟨1, ⟨4⟩⟩], [PoolTask.single ⟨4⟩], []⟩ :=
    run_wf init_wf
      (show run State.init [Action.get_scheduler 1, Action.schedule 2,
        Action.connect 3 (receiver_impl 100), Action.start 4] = some _ from rfl)
  refine ⟨hwf, ?_⟩
  obtain ⟨st1, h1, -, h2, h3, h4⟩ := set_error_fires_no_bridge_callback
    ⟨[Obj.context_impl, Obj.scheduler_impl 1 ⟨1⟩, Obj.sender_impl 2 ⟨1⟩,
      Obj.operation_state_impl (receiver_impl 100) ⟨1, ⟨4⟩⟩], [PoolTask.single ⟨4⟩], []⟩
    hwf 4 0 rfl (by simp) (by simp)
  exact ⟨st1, h1, h2, h3, fun st2 hr => h4 _ st2 (by simp) hr⟩

end SystemScheduler
